import Mathlib

/-!
# Verification of the trust-wallet-dex connection manager and activity journal

Shallow embedding of the repository's core code:

* `WalletState`, `walletReducer`, the connection commands (`connectWallet`,
  `disconnectWallet`, `switchNetworkCmd`, `refreshBalance`) and the peer event
  handlers (`handleAccountsChanged`, `handleChainChanged`) from
  `src/contexts/WalletContext.tsx` and `src/utils/walletUtils.ts`;
* the network registry (`SUPPORTED_NETWORKS`, `getNetworkById`) from
  `src/utils/walletUtils.ts`;
* the obfuscated storage layer (`encrypt`, `decrypt`, `getItem`) and the
  activity log manager (`addLogEntry`, `getLogs`) from
  `src/utils/encryptedStorage.ts`.

JavaScript strings that flow through the XOR/Base64 layer are modelled as
lists of UTF-16 code-unit values (`List Nat`); the platform primitives
`btoa`/`atob` are modelled as standard Base64 over those code units, with
failure (`none`) where the platform throws.  Peer round trips are modelled by
passing their outcomes as explicit parameters (oracles), so a command is a
pure function of the pre-state and the peer's replies.
-/

/-! ## Connection state machine: data model (src/types/wallet.ts) -/

/-- The canonical connection snapshot (`WalletState` in `src/types/wallet.ts`). -/
structure WalletState where
  isConnected : Bool
  account : Option String
  chainId : Option Nat
  balance : Option String
  isLoading : Bool
  error : Option String
  deriving DecidableEq, Repr

/-- The initial wallet state (`initialState` in `WalletContext.tsx`). -/
def initialState : WalletState :=
  { isConnected := false
    account := none
    chainId := none
    balance := none
    isLoading := false
    error := none }

/-- Reducer actions (`WalletAction` in `WalletContext.tsx`). -/
inductive WalletAction where
  | SET_LOADING (payload : Bool)
  | SET_ERROR (payload : Option String)
  | SET_CONNECTED (account : String) (chainId : Nat)
  | SET_DISCONNECTED
  | SET_BALANCE (payload : String)
  | SET_CHAIN_ID (payload : Nat)
  | RESET_STATE
  deriving DecidableEq, Repr

/-- The wallet state reducer (`walletReducer` in `WalletContext.tsx`). -/
def walletReducer (state : WalletState) (action : WalletAction) : WalletState :=
  match action with
  | .SET_LOADING payload => { state with isLoading := payload, error := none }
  | .SET_ERROR payload => { state with error := payload, isLoading := false }
  | .SET_CONNECTED account chainId =>
      { state with
        isConnected := true
        account := some account
        chainId := some chainId
        isLoading := false
        error := none }
  | .SET_DISCONNECTED => { initialState with isLoading := false }
  | .SET_BALANCE payload => { state with balance := some payload }
  | .SET_CHAIN_ID payload => { state with chainId := some payload }
  | .RESET_STATE => initialState

/-! ## Network registry (src/utils/walletUtils.ts) -/

/-- Native currency metadata of a network descriptor. -/
structure NativeCurrency where
  name : String
  symbol : String
  decimals : Nat
  deriving DecidableEq, Repr

/-- A network descriptor (`NetworkConfig` in `src/types/wallet.ts`). -/
structure NetworkConfig where
  chainId : String
  chainName : String
  nativeCurrency : NativeCurrency
  rpcUrls : List String
  blockExplorerUrls : List String
  deriving DecidableEq, Repr

/-- The static network table (`SUPPORTED_NETWORKS` in `walletUtils.ts`),
keyed by decimal chain id. -/
def SUPPORTED_NETWORKS : List (Nat × NetworkConfig) :=
  [ (1, { chainId := "0x1"
          chainName := "Ethereum Mainnet"
          nativeCurrency := { name := "Ethereum", symbol := "ETH", decimals := 18 }
          rpcUrls := ["https://mainnet.infura.io/v3/"]
          blockExplorerUrls := ["https://etherscan.io/"] })
  , (56, { chainId := "0x38"
           chainName := "Binance Smart Chain"
           nativeCurrency := { name := "BNB", symbol := "BNB", decimals := 18 }
           rpcUrls := ["https://bsc-dataseed.binance.org/"]
           blockExplorerUrls := ["https://bscscan.com/"] })
  , (137, { chainId := "0x89"
            chainName := "Polygon"
            nativeCurrency := { name := "MATIC", symbol := "MATIC", decimals := 18 }
            rpcUrls := ["https://polygon-rpc.com/"]
            blockExplorerUrls := ["https://polygonscan.com/"] }) ]

/-- `getNetworkById` from `walletUtils.ts`: lookup in the static table,
`null` (here `none`) for an unknown id. -/
def getNetworkById (chainId : Nat) : Option NetworkConfig :=
  (SUPPORTED_NETWORKS.find? (fun p => p.1 = chainId)).map (fun p => p.2)

/-! ## Small utilities -/

/-- Value of one hexadecimal digit character, if valid. -/
def hexDigitVal (c : Char) : Option Nat :=
  if '0' ≤ c ∧ c ≤ '9' then some (c.toNat - 48)
  else if 'a' ≤ c ∧ c ≤ 'f' then some (c.toNat - 97 + 10)
  else if 'A' ≤ c ∧ c ≤ 'F' then some (c.toNat - 65 + 10)
  else none

/-- Accumulate the maximal valid hexadecimal prefix. -/
def hexAccum (acc : Nat) : List Char → Nat
  | [] => acc
  | c :: cs =>
    match hexDigitVal c with
    | some d => hexAccum (acc * 16 + d) cs
    | none => acc

/-- `hexToDecimal` from `walletUtils.ts`: `parseInt(hex, 16)`, which skips an
optional `0x`/`0X` prefix and consumes the maximal valid hex prefix.  The
JavaScript `NaN` result (no valid digit at all) is modelled as `0`; no claim
depends on that corner. -/
def hexToDecimal (hex : String) : Nat :=
  let cs := hex.toList
  let cs :=
    match cs with
    | '0' :: 'x' :: rest => rest
    | '0' :: 'X' :: rest => rest
    | other => other
  hexAccum 0 cs

/-- Does `l` start with `p`? (Plain Boolean prefix test on lists.) -/
def listStartsWith : List Char → List Char → Bool
  | _, [] => true
  | [], _ :: _ => false
  | c :: cs, d :: ds => c = d && listStartsWith cs ds

/-- Boolean substring containment test on the underlying character lists. -/
def listContains : List Char → List Char → Bool
  | s, sub => if listStartsWith s sub then true else
      match s with
      | [] => false
      | _ :: cs => listContains cs sub

/-- JavaScript `String.prototype.includes`. -/
def includesStr (s sub : String) : Bool :=
  listContains s.toList sub.toList

/-- JavaScript truthiness of a nullable string: `null` and `""` are falsy. -/
def truthy (o : Option String) : Option String :=
  match o with
  | none => none
  | some s => if s = "" then none else some s

/-! ## Activity journal data model (src/utils/encryptedStorage.ts) -/

/-- The closed kind enum of `ActivityLogEntry.type`. -/
inductive LogType where
  | connection
  | disconnection
  | network_switch
  | transaction
  | error
  deriving DecidableEq, Repr

/-- The optional detail bag of an `ActivityLogEntry`. -/
structure LogDetails where
  account : Option String
  chainId : Option Nat
  networkName : Option String
  error : Option String
  deriving DecidableEq, Repr

/-- An entry as submitted to `addLogEntry`
(`Omit<ActivityLogEntry, 'id' | 'timestamp'>`). -/
structure LogEntryInput where
  type : LogType
  message : String
  details : Option LogDetails
  deriving DecidableEq, Repr

/-- A stored `ActivityLogEntry`. -/
structure ActivityLogEntry where
  id : String
  timestamp : Nat
  type : LogType
  message : String
  details : Option LogDetails
  deriving DecidableEq, Repr

/-- The capacity bound (`maxLogEntries` in `ActivityLogManager`). -/
def maxLogEntries : Nat := 100

/-- The id template of `addLogEntry`:
`` `${Date.now()}_${Math.random().toString(36).substr(2, 9)}` ``.
`now` is the clock reading and `rand` the random base-36 suffix, both oracle
inputs of the embedding. -/
def mkLogId (now : Nat) (rand : String) : String :=
  toString now ++ "_" ++ rand

/-- Materialize a submitted entry with its assigned id and timestamp. -/
def mkLogEntry (now : Nat) (rand : String) (e : LogEntryInput) : ActivityLogEntry :=
  { id := mkLogId now rand
    timestamp := now
    type := e.type
    message := e.message
    details := e.details }

/-- `ActivityLogManager.addLogEntry`, acting on the decoded stored sequence:
unshift the new entry, then `splice(maxLogEntries)` keeps only the first 100
entries.  (`splice(100)` is a no-op when the list is at most 100 long, so the
unconditional `take` is exact.) -/
def addLogEntry (now : Nat) (rand : String) (e : LogEntryInput)
    (logs : List ActivityLogEntry) : List ActivityLogEntry :=
  (mkLogEntry now rand e :: logs).take maxLogEntries

/-- A whole sequence of `addLogEntry` calls; each triple carries the clock
reading, the random suffix, and the submitted entry of one call. -/
def appendAll (inps : List (Nat × String × LogEntryInput))
    (logs : List ActivityLogEntry) : List ActivityLogEntry :=
  inps.foldl (fun l p => addLogEntry p.1 p.2.1 p.2.2 l) logs

/-! ## Base64 (the platform `btoa`/`atob` primitives)

`btoa` maps a JavaScript string whose code units are all below 256 to its
Base64 text and throws otherwise; `atob` is its inverse and throws on input
that is not well-formed Base64.  Both are modelled over lists of code-unit
values, with `none` for a thrown `InvalidCharacterError`. -/

/-- Code-unit value of the Base64 alphabet character for a sextet. -/
def b64Code (n : Nat) : Nat :=
  if n < 26 then 65 + n
  else if n < 52 then 97 + (n - 26)
  else if n < 62 then 48 + (n - 52)
  else if n = 62 then 43
  else 47

/-- Sextet value of a Base64 alphabet code unit, if valid.  `'='` (61) is not
in the alphabet. -/
def b64Dec (c : Nat) : Option Nat :=
  if 65 ≤ c ∧ c ≤ 90 then some (c - 65)
  else if 97 ≤ c ∧ c ≤ 122 then some (c - 97 + 26)
  else if 48 ≤ c ∧ c ≤ 57 then some (c - 48 + 52)
  else if c = 43 then some 62
  else if c = 47 then some 63
  else none

/-- Base64-encode a byte sequence (code units of the output text; 61 is `'='`
padding). -/
def b64EncodeBytes : List Nat → List Nat
  | [] => []
  | [a] => [b64Code (a / 4), b64Code (a % 4 * 16), 61, 61]
  | [a, b] => [b64Code (a / 4), b64Code (a % 4 * 16 + b / 16), b64Code (b % 16 * 4), 61]
  | a :: b :: c :: rest =>
      b64Code (a / 4) :: b64Code (a % 4 * 16 + b / 16) ::
      b64Code (b % 16 * 4 + c / 64) :: b64Code (c % 64) :: b64EncodeBytes rest

/-- Base64-decode a padded Base64 text back to its byte sequence; `none` on
malformed input. -/
def b64DecodeBytes : List Nat → Option (List Nat)
  | [] => some []
  | w :: x :: y :: z :: rest =>
    match b64Dec w, b64Dec x with
    | some dw, some dx =>
      if y = 61 ∧ z = 61 ∧ rest = [] then
        some [dw * 4 + dx / 16]
      else
        match b64Dec y with
        | some dy =>
          if z = 61 ∧ rest = [] then
            some [dw * 4 + dx / 16, dx % 16 * 16 + dy / 4]
          else
            match b64Dec z, b64DecodeBytes rest with
            | some dz, some ds =>
                some ((dw * 4 + dx / 16) :: (dx % 16 * 16 + dy / 4) ::
                      (dy % 4 * 64 + dz) :: ds)
            | _, _ => none
        | none => none
    | _, _ => none
  | _ => none

/-- The platform `btoa`: throws (here `none`) when a code unit exceeds 255. -/
def btoa (s : List Nat) : Option (List Nat) :=
  if s.all (fun c => c < 256) then some (b64EncodeBytes s) else none

/-- The platform `atob`. -/
def atob (s : List Nat) : Option (List Nat) :=
  b64DecodeBytes s

/-! ## Obfuscation layer (`EncryptedStorage` in encryptedStorage.ts) -/

/-- XOR a data stream with the cycled key stream, starting at position `i`
(`data.charCodeAt(i) ^ key.charCodeAt(i % key.length)`). -/
def xorKS (key : List Nat) : Nat → List Nat → List Nat
  | _, [] => []
  | i, d :: rest => (d ^^^ key.getD (i % key.length) 0) :: xorKS key (i + 1) rest

/-- The XOR keystream combination used by both `encrypt` and `decrypt`. -/
def xorKeystream (data key : List Nat) : List Nat :=
  xorKS key 0 data

/-- `EncryptedStorage.encrypt`: XOR with the cycled key, then `btoa`. -/
def encrypt (data key : List Nat) : Option (List Nat) :=
  btoa (xorKeystream data key)

/-- `EncryptedStorage.decrypt`: `atob`, then XOR with the cycled key. -/
def decrypt (encryptedData key : List Nat) : Option (List Nat) :=
  (atob encryptedData).map (fun d => xorKeystream d key)

/-! ## Storage read path (`EncryptedStorage.getItem` / `ActivityLogManager.getLogs`)

The persisted slot for one logical key is modelled as `Option (List Nat)`:
the raw stored string (code units) or nothing.  `JSON.parse` is a platform
primitive; it is abstracted as a `parse` parameter returning `none` where the
platform throws.  `decompress` is the identity, as in the source. -/

/-- The versioned envelope (`StorageItem<T>` in encryptedStorage.ts). -/
structure StorageItem (α : Type) where
  data : α
  timestamp : Nat
  version : String
  deriving DecidableEq, Repr

/-- The current schema version (`version` field of `EncryptedStorage`). -/
def storageVersion : String := "1.0.0"

/-- `EncryptedStorage.getItem`, returning the read result together with the
slot's contents after the call.  The `try/catch` around the whole body means a
decode (`atob`) or parse failure returns `null` with the slot untouched; only
a schema-version mismatch calls `removeItem`. -/
def getItem {α : Type} (parse : List Nat → Option (StorageItem α))
    (key : List Nat) (slot : Option (List Nat)) :
    Option α × Option (List Nat) :=
  match slot with
  | none => (none, none)
  | some encrypted =>
    match decrypt encrypted key with
    | none => (none, some encrypted)
    | some compressed =>
      match parse compressed with
      | none => (none, some encrypted)
      | some storageItem =>
        if storageItem.version = storageVersion then
          (some storageItem.data, some encrypted)
        else
          (none, none)

/-- `ActivityLogManager.getLogs`: `getItem(...) || []`, with the slot contents
after the call. -/
def getLogs (parse : List Nat → Option (StorageItem (List ActivityLogEntry)))
    (key : List Nat) (slot : Option (List Nat)) :
    List ActivityLogEntry × Option (List Nat) :=
  ((getItem parse key slot).1.getD [], (getItem parse key slot).2)

/-! ## Peer client and connection commands (walletUtils.ts / WalletContext.tsx)

Every peer round trip is an oracle parameter: the embedding quantifies over
all replies the peer could give. -/

/-- Outcome of `requestAccounts`, `getChainId` or `getBalance` as seen by the
caller: the resolved value, or the thrown error message. -/
abbrev PeerRes (α : Type) := Except String α

/-- Oracle inputs of one `connectWallet` call. -/
structure ConnectEnv where
  /-- `isTrustWalletAvailable()` -/
  available : Bool
  /-- result of `requestAccounts()` (rejection already mapped to its message) -/
  accountsRes : PeerRes (List String)
  /-- result of `getChainId()` -/
  chainRes : PeerRes String
  /-- result of the initial `getBalance` fetch -/
  balanceRes : PeerRes String
  deriving Repr

/-- The peer's reply to the `wallet_switchEthereumChain` request. -/
inductive SwitchReply where
  /-- resolves -/
  | ok
  /-- rejects with code 4902 ("network unknown to peer") -/
  | unknownChain
  /-- rejects with code 4001 ("user rejected") -/
  | userRejected
  /-- rejects with some other error message -/
  | otherErr (msg : String)
  /-- the 30s timeout fires first -/
  | timedOut
  deriving DecidableEq, Repr

/-- The peer's reply to the `wallet_addEthereumChain` fallback request. -/
inductive AddReply where
  | ok
  | err (msg : String)
  | timedOut
  deriving DecidableEq, Repr

/-- Oracle inputs of one `switchNetwork` peer interaction. -/
structure SwitchEnv where
  providerPresent : Bool
  reply : SwitchReply
  addReply : AddReply
  deriving DecidableEq, Repr

/-- A request issued to the peer by `switchNetwork` (walletUtils.ts). -/
inductive PeerReq where
  | switchChain (hexId : String)
  | addChain (chainId : Nat)
  deriving DecidableEq, Repr

/-- `switchNetwork` from `walletUtils.ts`: provider check, registry lookup,
switch request, add-network fallback on code 4902.  Returns the outcome
together with the ordered list of requests issued to the peer. -/
def switchNetworkUtil (env : SwitchEnv) (chainId : Nat) :
    Except String Unit × List PeerReq :=
  if env.providerPresent = false then
    (Except.error "Trust Wallet not found", [])
  else
    match getNetworkById chainId with
    | none => (Except.error ("Unsupported network: " ++ toString chainId), [])
    | some network =>
      match env.reply with
      | .ok => (Except.ok (), [PeerReq.switchChain network.chainId])
      | .timedOut =>
          (Except.error "Network switch request timed out",
           [PeerReq.switchChain network.chainId])
      | .unknownChain =>
          match env.addReply with
          | .ok =>
              (Except.ok (),
               [PeerReq.switchChain network.chainId, PeerReq.addChain chainId])
          | .err m =>
              (Except.error m,
               [PeerReq.switchChain network.chainId, PeerReq.addChain chainId])
          | .timedOut =>
              (Except.error "Network switch request timed out",
               [PeerReq.switchChain network.chainId, PeerReq.addChain chainId])
      | .userRejected =>
          (Except.error "User rejected the network switch request",
           [PeerReq.switchChain network.chainId])
      | .otherErr m => (Except.error m, [PeerReq.switchChain network.chainId])

/-- `refreshBalance` from `WalletContext.tsx`:
`targetAccount = account || walletState.account`; no-op if falsy, else
`SET_BALANCE` on success or a wrapped `SET_ERROR` on failure. -/
def refreshBalance (account : Option String) (balanceRes : PeerRes String)
    (s : WalletState) : WalletState :=
  match (truthy account).orElse (fun _ => truthy s.account) with
  | none => s
  | some _ =>
    match balanceRes with
    | .ok balance => walletReducer s (.SET_BALANCE balance)
    | .error m =>
        walletReducer s (.SET_ERROR (some ("Failed to get balance: " ++ m)))

/-- The `catch` block of `connectWallet`: journal a generic error entry unless
the message is one of the two already-journaled cases, then `SET_ERROR`. -/
def connectCatch (s1 : WalletState) (msg : String) :
    WalletState × List LogEntryInput :=
  let entries :=
    if includesStr msg "Trust Wallet is not installed" ||
       includesStr msg "No accounts found" then
      ([] : List LogEntryInput)
    else
      [{ type := .error
         message := "Wallet connection failed"
         details := some { account := none, chainId := none,
                           networkName := none, error := some msg } }]
  (walletReducer s1 (.SET_ERROR (some msg)), entries)

/-- `connectWallet` from `WalletContext.tsx`, returning the final snapshot and
the journal entries submitted during the call. -/
def connectWallet (env : ConnectEnv) (s : WalletState) :
    WalletState × List LogEntryInput :=
  let s1 := walletReducer s (.SET_LOADING true)
  if env.available = false then
    let pre : List LogEntryInput :=
      [{ type := .error
         message := "Connection failed - Trust Wallet not available"
         details := some { account := none, chainId := none,
                           networkName := none,
                           error := some "Trust Wallet is not installed" } }]
    let r := connectCatch s1 "Trust Wallet is not installed"
    (r.1, pre ++ r.2)
  else
    match env.accountsRes with
    | .error msg => connectCatch s1 msg
    | .ok [] =>
      let pre : List LogEntryInput :=
        [{ type := .error
           message := "Connection failed - No accounts available"
           details := some { account := none, chainId := none,
                             networkName := none,
                             error := some "No accounts found" } }]
      let r := connectCatch s1 "No accounts found"
      (r.1, pre ++ r.2)
    | .ok (a :: _) =>
      match env.chainRes with
      | .error msg => connectCatch s1 msg
      | .ok chainIdHex =>
        let chainId := hexToDecimal chainIdHex
        let network := getNetworkById chainId
        let s2 := walletReducer s1 (.SET_CONNECTED a chainId)
        let connEntry : LogEntryInput :=
          { type := .connection
            message := "Successfully connected to Trust Wallet"
            details := some
              { account := some a
                chainId := some chainId
                networkName :=
                  some ((network.map (fun n => n.chainName)).getD "Unknown Network")
                error := none } }
        (refreshBalance (some a) env.balanceRes s2, [connEntry])

/-- `disconnectWallet` from `WalletContext.tsx`: journal a disconnection entry
referencing the current account, then reset the snapshot. -/
def disconnectWallet (s : WalletState) : WalletState × List LogEntryInput :=
  (walletReducer s .SET_DISCONNECTED,
   [{ type := .disconnection
      message := "Wallet disconnected"
      details := some { account := truthy s.account, chainId := none,
                        networkName := none, error := none } }])

/-- The `switchNetwork` command from `WalletContext.tsx`: `SET_LOADING`,
delegate to the peer util, update `chainId` and refresh the balance on
success, `SET_ERROR` on failure; the `finally` block dispatches
`SET_LOADING false` unconditionally on both paths. -/
def switchNetworkCmd (targetChainId : Nat) (env : SwitchEnv)
    (balanceRes : PeerRes String) (s : WalletState) :
    WalletState × List LogEntryInput :=
  let s1 := walletReducer s (.SET_LOADING true)
  let targetNetwork := getNetworkById targetChainId
  let targetName := (targetNetwork.map (fun n => n.chainName)).getD "Unknown Network"
  match (switchNetworkUtil env targetChainId).1 with
  | .ok _ =>
    let s2 := walletReducer s1 (.SET_CHAIN_ID targetChainId)
    let s3 := walletReducer s2 (.SET_LOADING false)
    let entry : LogEntryInput :=
      { type := .network_switch
        message := "Switched to " ++ targetName
        details := some { account := truthy s.account
                          chainId := some targetChainId
                          networkName := some targetName
                          error := none } }
    let s4 :=
      match truthy s.account with
      | some a => refreshBalance (some a) balanceRes s3
      | none => s3
    (walletReducer s4 (.SET_LOADING false), [entry])
  | .error m =>
    let entry : LogEntryInput :=
      { type := .error
        message := "Failed to switch to " ++
          ((targetNetwork.map (fun n => n.chainName)).getD "network")
        details := some { account := truthy s.account
                          chainId := some targetChainId
                          networkName := some targetName
                          error := some m } }
    let s2 := walletReducer s1 (.SET_ERROR (some m))
    (walletReducer s2 (.SET_LOADING false), [entry])

/-- `handleAccountsChanged` from `WalletContext.tsx`. -/
def handleAccountsChanged (accounts : List String) (balanceRes : PeerRes String)
    (s : WalletState) : WalletState :=
  match accounts with
  | [] => walletReducer s .SET_DISCONNECTED
  | newAccount :: _ =>
    if s.isConnected = true ∧ some newAccount ≠ s.account then
      let chainId :=
        match s.chainId with
        | some c => if c = 0 then 1 else c
        | none => 1
      let s2 := walletReducer s (.SET_CONNECTED newAccount chainId)
      refreshBalance (some newAccount) balanceRes s2
    else s

/-- `handleChainChanged` from `WalletContext.tsx`. -/
def handleChainChanged (chainIdHex : String) (balanceRes : PeerRes String)
    (s : WalletState) : WalletState :=
  let chainId := hexToDecimal chainIdHex
  let s2 := walletReducer s (.SET_CHAIN_ID chainId)
  match truthy s.account with
  | some a => refreshBalance (some a) balanceRes s2
  | none => s2

/-- One command or peer event, with its oracle inputs. -/
inductive Step where
  | connect (env : ConnectEnv)
  | disconnect
  | switchNet (targetChainId : Nat) (env : SwitchEnv) (balanceRes : PeerRes String)
  | refreshBal (balanceRes : PeerRes String)
  | evAccounts (accounts : List String) (balanceRes : PeerRes String)
  | evChain (chainIdHex : String) (balanceRes : PeerRes String)
  deriving Repr

/-- The snapshot transition of one step. -/
def applyStep (st : Step) (s : WalletState) : WalletState :=
  match st with
  | .connect env => (connectWallet env s).1
  | .disconnect => (disconnectWallet s).1
  | .switchNet cid env balanceRes => (switchNetworkCmd cid env balanceRes s).1
  | .refreshBal balanceRes => refreshBalance none balanceRes s
  | .evAccounts accounts balanceRes => handleAccountsChanged accounts balanceRes s
  | .evChain chainIdHex balanceRes => handleChainChanged chainIdHex balanceRes s

/-- Run a sequence of commands and peer events. -/
def runSteps (steps : List Step) (s : WalletState) : WalletState :=
  steps.foldl (fun s st => applyStep st s) s

/-- Recover the random suffix of length `n` from an id. -/
def recoverRand (n : Nat) (s : String) : List Char :=
  (s.data.reverse.take n).reverse

/-- A deterministic stand-in for the random base-36 suffix oracle: 9
characters, distinct for each index below 225. -/
def sampleRand (i : Nat) : String :=
  ⟨[Char.ofNat (65 + i / 15), Char.ofNat (65 + i % 15),
    'a', 'b', 'c', 'd', 'e', 'f', 'g']⟩

/-- 150 concrete append inputs. -/
def sampleInputs : List (Nat × String × LogEntryInput) :=
  (List.range 150).map
    (fun i => (i, sampleRand i, { type := LogType.connection, message := "m",
                                  details := none }))

/-- A parse oracle that always fails (models `JSON.parse` throwing). -/
def badParse : List Nat → Option (StorageItem (List ActivityLogEntry)) :=
  fun _ => none

/-- A parse oracle yielding an envelope with a stale schema version. -/
def staleParse : List Nat → Option (StorageItem (List ActivityLogEntry)) :=
  fun _ => some { data := [], timestamp := 0, version := "0.9.0" }

/-! ## Theorems -/

/-- **C6** — For every snapshot, processing the peer event `accountsChanged`
with an empty accounts sequence yields the same resulting snapshot as
invoking `disconnect()` from that snapshot: both dispatch exactly
`SET_DISCONNECTED`. -/
theorem accountsChanged_empty_eq_disconnect (s : WalletState)
    (balanceRes : PeerRes String) :
    applyStep (.evAccounts [] balanceRes) s = applyStep .disconnect s := rfl

/-- **C9** — `disconnect()` is idempotent on the snapshot: invoking it twice
in a row (in particular starting from the Disconnected state) produces the
same snapshot as invoking it once, since both resolve to the initial
snapshot. -/
theorem disconnect_idempotent (s : WalletState) :
    applyStep .disconnect (applyStep .disconnect s) = applyStep .disconnect s := rfl

/-- **C3** — For every chain id with no descriptor in the Network Registry,
`switchNetwork` fails with the `UnsupportedNetwork` error and issues no
request at all to the peer — in particular no add-network request. -/
theorem switchNetwork_unsupported (cid : Nat) (env : SwitchEnv)
    (hreg : getNetworkById cid = none) (hp : env.providerPresent = true) :
    switchNetworkUtil env cid
      = (Except.error ("Unsupported network: " ++ toString cid), []) := by
  simp [switchNetworkUtil, hp, hreg]

/-- Witness for C3: `switchNetwork(999999)` with a present peer. -/
theorem switchNetwork_unsupported_witness :
    switchNetworkUtil ⟨true, SwitchReply.ok, AddReply.ok⟩ 999999
      = (Except.error ("Unsupported network: " ++ toString 999999), []) :=
  switchNetwork_unsupported 999999 ⟨true, SwitchReply.ok, AddReply.ok⟩ (by decide) rfl

/-- **C7** — On a connected snapshot whose account is present, a failing
balance refresh sets `error` to the wrapped message and leaves `connected`,
`account` and `chainId` (and `balance`) unchanged. -/
theorem refreshBalance_failure_frame (s : WalletState) (a m : String)
    (hc : s.isConnected = true) (ha : s.account = some a) (hne : a ≠ "") :
    (applyStep (.refreshBal (Except.error m)) s).error
        = some ("Failed to get balance: " ++ m)
    ∧ (applyStep (.refreshBal (Except.error m)) s).isConnected = s.isConnected
    ∧ (applyStep (.refreshBal (Except.error m)) s).account = s.account
    ∧ (applyStep (.refreshBal (Except.error m)) s).chainId = s.chainId
    ∧ (applyStep (.refreshBal (Except.error m)) s).balance = s.balance := by
  simp [applyStep, refreshBalance, truthy, ha, hne, walletReducer, Option.orElse]

/-- Witness for C7 at a concrete connected snapshot. -/
theorem refreshBalance_failure_frame_witness :
    (applyStep (.refreshBal (Except.error "boom"))
        ⟨true, some "0xAAA", some 1, some "0x5", false, none⟩).error
      = some ("Failed to get balance: " ++ "boom") :=
  (refreshBalance_failure_frame ⟨true, some "0xAAA", some 1, some "0x5", false, none⟩
    "0xAAA" "boom" rfl rfl (by decide)).1

/-- **C4** — `connect()` with a locatable peer returning no accounts fails
with `NoAccounts`: the snapshot stays disconnected, its `error` field is
"No accounts found", and exactly one error-kind journal entry is submitted
(the catch block skips the duplicate). -/
theorem connect_no_accounts (s : WalletState) (chainRes balanceRes : PeerRes String)
    (h : s.isConnected = false) :
    (connectWallet ⟨true, Except.ok [], chainRes, balanceRes⟩ s).1.isConnected = false
    ∧ (connectWallet ⟨true, Except.ok [], chainRes, balanceRes⟩ s).1.error
        = some "No accounts found"
    ∧ (connectWallet ⟨true, Except.ok [], chainRes, balanceRes⟩ s).2
        = [{ type := .error
             message := "Connection failed - No accounts available"
             details := some { account := none, chainId := none, networkName := none,
                               error := some "No accounts found" } }]
    ∧ ((connectWallet ⟨true, Except.ok [], chainRes, balanceRes⟩ s).2.filter
        (fun e => e.type = LogType.error)).length = 1 := by
  have hinc : (includesStr "No accounts found" "Trust Wallet is not installed" ||
      includesStr "No accounts found" "No accounts found") = true := by decide
  simp [connectWallet, connectCatch, walletReducer, h, hinc]

/-- Witness for C4 from the initial snapshot. -/
theorem connect_no_accounts_witness :
    (connectWallet ⟨true, Except.ok [], Except.ok "0x1", Except.ok "0x0"⟩
        initialState).1.error = some "No accounts found" :=
  (connect_no_accounts initialState (Except.ok "0x1") (Except.ok "0x0") rfl).2.1

/-- `refreshBalance` never touches `connected`, `account` or `chainId`. -/
theorem refreshBalance_fields (account : Option String) (balanceRes : PeerRes String)
    (s : WalletState) :
    (refreshBalance account balanceRes s).isConnected = s.isConnected
    ∧ (refreshBalance account balanceRes s).account = s.account
    ∧ (refreshBalance account balanceRes s).chainId = s.chainId := by
  unfold refreshBalance
  split
  · exact ⟨rfl, rfl, rfl⟩
  · split <;> simp [walletReducer]

/-- `refreshBalance` is a no-op when both the argument and the snapshot
account are falsy. -/
theorem refreshBalance_skip (account : Option String) (balanceRes : PeerRes String)
    (s : WalletState) (h1 : truthy account = none) (h2 : truthy s.account = none) :
    refreshBalance account balanceRes s = s := by
  unfold refreshBalance
  rw [h1]
  dsimp only [Option.orElse]
  rw [h2]

/-- Step preservation of the disconnected-fields invariant: if a snapshot
with `connected = false` has no account and no balance, the same holds after
any single command or peer event. -/
theorem disconnected_clean_applyStep (st : Step) (s : WalletState)
    (h : s.isConnected = false → s.account = none ∧ s.balance = none) :
    (applyStep st s).isConnected = false →
      (applyStep st s).account = none ∧ (applyStep st s).balance = none := by
  cases st with
  | connect env =>
    rcases env with ⟨av, accRes, chainRes, balRes⟩
    cases av with
    | false =>
      simp only [applyStep, connectWallet]
      simp [connectCatch, walletReducer]
      exact h
    | true =>
      cases accRes with
      | error msg =>
        simp only [applyStep, connectWallet]
        simp [connectCatch, walletReducer]
        exact h
      | ok accounts =>
        cases accounts with
        | nil =>
          simp only [applyStep, connectWallet]
          simp [connectCatch, walletReducer]
          exact h
        | cons a rest =>
          cases chainRes with
          | error msg =>
            simp only [applyStep, connectWallet]
            simp [connectCatch, walletReducer]
            exact h
          | ok hex =>
            simp only [applyStep, connectWallet]
            rw [if_neg (by decide : ¬(true = false))]
            dsimp only
            intro hdis
            exfalso
            rw [(refreshBalance_fields _ _ _).1] at hdis
            simp [walletReducer] at hdis
  | disconnect =>
    simp [applyStep, disconnectWallet, walletReducer, initialState]
  | switchNet cid env balRes =>
    simp only [applyStep, switchNetworkCmd]
    cases hu : (switchNetworkUtil env cid).1 with
    | error m =>
      simp [walletReducer]
      exact h
    | ok v =>
      cases hacc : truthy s.account with
      | none =>
        simp [walletReducer]
        exact h
      | some a =>
        intro hdis
        exfalso
        simp only [walletReducer] at hdis
        rw [(refreshBalance_fields _ _ _).1] at hdis
        simp [walletReducer] at hdis
        have := (h hdis).1
        rw [this] at hacc
        simp [truthy] at hacc
  | refreshBal balRes =>
    simp only [applyStep]
    cases hacc : truthy s.account with
    | none =>
      rw [refreshBalance_skip none balRes s rfl hacc]
      exact h
    | some a =>
      intro hdis
      exfalso
      rw [(refreshBalance_fields _ _ _).1] at hdis
      have := (h hdis).1
      rw [this] at hacc
      simp [truthy] at hacc
  | evAccounts accounts balRes =>
    cases accounts with
    | nil =>
      simp [applyStep, handleAccountsChanged, walletReducer, initialState]
    | cons a rest =>
      simp only [applyStep, handleAccountsChanged]
      by_cases hcond : s.isConnected = true ∧ some a ≠ s.account
      · rw [if_pos hcond]
        intro hdis
        exfalso
        rw [(refreshBalance_fields _ _ _).1] at hdis
        simp [walletReducer] at hdis
      · rw [if_neg hcond]
        exact h
  | evChain hex balRes =>
    simp only [applyStep, handleChainChanged]
    cases hacc : truthy s.account with
    | none =>
      simp [walletReducer]
      exact h
    | some a =>
      intro hdis
      exfalso
      rw [(refreshBalance_fields _ _ _).1] at hdis
      simp [walletReducer] at hdis
      have := (h hdis).1
      rw [this] at hacc
      simp [truthy] at hacc

/-- The disconnected-fields invariant holds along any run. -/
theorem disconnected_clean_runSteps (steps : List Step) (s : WalletState)
    (h : s.isConnected = false → s.account = none ∧ s.balance = none) :
    (runSteps steps s).isConnected = false →
      (runSteps steps s).account = none ∧ (runSteps steps s).balance = none := by
  induction steps generalizing s with
  | nil => exact h
  | cons st rest ih => exact ih (applyStep st s) (disconnected_clean_applyStep st s h)

/-- **C1 (counterexample)** — The claimed invariant fails: a `chainChanged`
peer event on the initial (disconnected) snapshot sets `chainId` while
`connected` stays `false`, so a reachable snapshot has `connected = false`
and `chainId ≠ null`. -/
theorem disconnected_invariant_counterexample :
    ¬ (∀ steps : List Step,
        (runSteps steps initialState).isConnected = false →
          (runSteps steps initialState).account = none
          ∧ (runSteps steps initialState).chainId = none
          ∧ (runSteps steps initialState).balance = none) := by
  intro hclaim
  have h := hclaim [Step.evChain "0x1" (Except.error "e")] (by decide)
  have : (runSteps [Step.evChain "0x1" (Except.error "e")] initialState).chainId
      = some 1 := by decide
  rw [this] at h
  exact Option.noConfusion h.2.1

/-- **C1 (amended)** — For every sequence of commands and peer events applied
to the initial snapshot, every reachable snapshot with `connected = false`
has `account = null` and `balance = null` (but `chainId` may be set while
disconnected, by `switchNetwork` or a `chainChanged` event). -/
theorem disconnected_invariant_amended (steps : List Step)
    (h : (runSteps steps initialState).isConnected = false) :
    (runSteps steps initialState).account = none
    ∧ (runSteps steps initialState).balance = none :=
  disconnected_clean_runSteps steps initialState (fun _ => ⟨rfl, rfl⟩) h

/-- Witness for the amended C1 at the empty run. -/
theorem disconnected_invariant_amended_witness :
    (runSteps [] initialState).account = none
    ∧ (runSteps [] initialState).balance = none :=
  disconnected_invariant_amended [] rfl

/-- Every single reducer action preserves `loading = true → error = null`:
`SET_LOADING` clears `error`, `SET_ERROR` clears `loading`, and no action
sets one without handling the other. -/
theorem loading_clears_error_reducer (s : WalletState) (a : WalletAction)
    (h : s.isLoading = true → s.error = none) :
    (walletReducer s a).isLoading = true → (walletReducer s a).error = none := by
  cases a <;> intro hl <;> simp_all [walletReducer, initialState]

/-- The `loading ⇒ no error` invariant holds along any dispatch sequence. -/
theorem loading_clears_error_foldl (acts : List WalletAction) (s : WalletState)
    (h : s.isLoading = true → s.error = none) :
    (acts.foldl walletReducer s).isLoading = true →
      (acts.foldl walletReducer s).error = none := by
  induction acts generalizing s with
  | nil => exact h
  | cons a rest ih =>
      exact ih (walletReducer s a) (loading_clears_error_reducer s a h)

/-- **C8** — Every snapshot reachable from the initial snapshot by dispatching
reducer actions (which covers every intermediate and final snapshot of every
sequence of commands and peer events, since those only dispatch these
actions) satisfies `loading = true → error = null`: a new command's
`SET_LOADING` clears a prior error before the command is in flight. -/
theorem loading_implies_no_error (acts : List WalletAction)
    (h : (acts.foldl walletReducer initialState).isLoading = true) :
    (acts.foldl walletReducer initialState).error = none :=
  loading_clears_error_foldl acts initialState (fun _ => rfl) h

/-- Witness for C8: a snapshot with `loading = true`, reached by dispatching
`SET_LOADING true`, has no error. -/
theorem loading_implies_no_error_witness :
    (([WalletAction.SET_LOADING true]).foldl walletReducer initialState).error
      = none :=
  loading_implies_no_error [WalletAction.SET_LOADING true] rfl

/-- Truncating to `n` commutes with earlier truncation of the tail. -/
theorem take_append_take {α : Type} (A B : List α) (n : Nat) :
    (A ++ B.take n).take n = (A ++ B).take n := by
  rw [List.take_append_eq_append_take, List.take_append_eq_append_take, List.take_take,
    Nat.min_eq_left (Nat.sub_le n A.length)]

/-- Closed form of a sequence of `addLogEntry` calls: the submitted entries,
newest first, in front of the old log, truncated to the capacity bound. -/
theorem appendAll_eq (inps : List (Nat × String × LogEntryInput))
    (logs : List ActivityLogEntry) (h : logs.length ≤ maxLogEntries) :
    appendAll inps logs
      = ((inps.map (fun p => mkLogEntry p.1 p.2.1 p.2.2)).reverse ++ logs).take
          maxLogEntries := by
  induction inps generalizing logs with
  | nil =>
    simp only [appendAll, List.foldl_nil, List.map_nil, List.reverse_nil,
      List.nil_append]
    exact (List.take_of_length_le h).symm
  | cons p ps ih =>
    have hstep : appendAll (p :: ps) logs
        = appendAll ps (addLogEntry p.1 p.2.1 p.2.2 logs) := rfl
    rw [hstep, ih _ (by simp [addLogEntry])]
    unfold addLogEntry
    rw [take_append_take, List.map_cons, List.reverse_cons, List.append_assoc,
      List.singleton_append]

/-- The random base-36 suffix is recoverable from an assigned id as its last
`rand.length` characters (the clock prefix never reaches past the `'_'`). -/
theorem mkLogId_rand (now : Nat) (rand : String) :
    ((mkLogId now rand).data.reverse.take rand.length).reverse = rand.data := by
  unfold mkLogId
  rw [String.data_append, List.reverse_append]
  have hlen : rand.data.reverse.length = rand.length := by
    rw [List.length_reverse]; rfl
  rw [← hlen, List.take_left, List.reverse_reverse]

/-- Ids assigned by `addLogEntry` are pairwise distinct whenever the random
suffixes are pairwise distinct and of a common length. -/
theorem mkLogId_nodup (inps : List (Nat × String × LogEntryInput))
    (hlen : ∀ p ∈ inps, p.2.1.length = 9)
    (hnd : (inps.map (fun p => p.2.1)).Nodup) :
    (inps.map (fun p => mkLogId p.1 p.2.1)).Nodup := by
  apply List.Nodup.of_map (recoverRand 9)
  have hmap : (inps.map (fun p => mkLogId p.1 p.2.1)).map (recoverRand 9)
      = inps.map (fun p => p.2.1.data) := by
    rw [List.map_map]
    apply List.map_congr_left
    intro p hp
    show recoverRand 9 (mkLogId p.1 p.2.1) = p.2.1.data
    unfold recoverRand
    rw [← hlen p hp]
    exact mkLogId_rand p.1 p.2.1
  rw [hmap]
  have hd : ((inps.map (fun p => p.2.1)).map String.data).Nodup :=
    hnd.map (fun a b hab => by
      cases a; cases b; exact congrArg String.mk (by simpa using hab))
  rw [List.map_map] at hd
  exact hd

/-- **C5** — Each `addLogEntry` call assigns the submitted entry its id (from
the clock and random oracles) and timestamp and prepends it, the stored
sequence is truncated to the 100 most recent, newest first; appending 150
entries leaves exactly the 100 most recent, and the assigned ids are pairwise
distinct whenever the random suffixes are (they have 9 characters each). -/
theorem journal_capacity (inps : List (Nat × String × LogEntryInput))
    (h150 : inps.length = 150)
    (hlen : ∀ p ∈ inps, p.2.1.length = 9)
    (hnd : (inps.map (fun p => p.2.1)).Nodup) :
    appendAll inps []
      = ((inps.map (fun p => mkLogEntry p.1 p.2.1 p.2.2)).reverse).take 100
    ∧ (appendAll inps []).length = 100
    ∧ ((appendAll inps []).map (fun e => e.id)).Nodup := by
  have heq : appendAll inps []
      = ((inps.map (fun p => mkLogEntry p.1 p.2.1 p.2.2)).reverse).take 100 := by
    have := appendAll_eq inps [] (by simp [maxLogEntries])
    simpa [maxLogEntries] using this
  refine ⟨heq, ?_, ?_⟩
  · rw [heq]
    simp [List.length_take, List.length_reverse, List.length_map, h150]
  · rw [heq, List.map_take, List.map_reverse, List.map_map]
    have hids : inps.map ((fun e => ActivityLogEntry.id e) ∘ fun p => mkLogEntry p.1 p.2.1 p.2.2)
        = inps.map (fun p => mkLogId p.1 p.2.1) :=
      List.map_congr_left (fun p _ => rfl)
    rw [hids]
    exact List.Nodup.sublist (List.take_sublist 100 _)
      (List.nodup_reverse.mpr (mkLogId_nodup inps hlen hnd))

set_option maxRecDepth 100000 in
set_option maxHeartbeats 4000000 in
/-- Witness for C5: appending the 150 concrete entries leaves exactly 100,
with pairwise distinct ids. -/
theorem journal_capacity_witness :
    (appendAll sampleInputs []).length = 100
    ∧ ((appendAll sampleInputs []).map (fun e => e.id)).Nodup :=
  ⟨(journal_capacity sampleInputs (by decide) (by decide) (by decide)).2.1,
   (journal_capacity sampleInputs (by decide) (by decide) (by decide)).2.2⟩

/-- Decoding inverts encoding on each sextet value. -/
theorem b64Dec_code (n : Nat) (h : n < 64) : b64Dec (b64Code n) = some n := by
  interval_cases n <;> decide

/-- No sextet encodes to the padding character `'='` (61). -/
theorem b64Code_ne_61 (n : Nat) (h : n < 64) : b64Code n ≠ 61 := by
  interval_cases n <;> decide

/-- Base64 round trip on byte sequences, by strong induction on length. -/
theorem b64_roundtrip_aux :
    ∀ (n : Nat) (l : List Nat), l.length ≤ n → (∀ b ∈ l, b < 256) →
      b64DecodeBytes (b64EncodeBytes l) = some l := by
  intro n
  induction n with
  | zero =>
    intro l hl _
    have : l = [] := List.eq_nil_of_length_eq_zero (Nat.le_zero.mp hl)
    subst this
    rfl
  | succ n ih =>
    intro l hl hb
    match l with
    | [] => rfl
    | [a] =>
      have ha : a < 256 := hb a (by simp)
      have h1 := b64Dec_code (a / 4) (by omega)
      have h2 := b64Dec_code (a % 4 * 16) (by omega)
      simp only [b64EncodeBytes, b64DecodeBytes, h1, h2, eq_self_iff_true,
        and_self, if_true]
      have e1 : a / 4 * 4 + a % 4 * 16 / 16 = a := by omega
      rw [e1]
    | [a, b] =>
      have ha : a < 256 := hb a (by simp)
      have hb2 : b < 256 := hb b (by simp)
      have h1 := b64Dec_code (a / 4) (by omega)
      have h2 := b64Dec_code (a % 4 * 16 + b / 16) (by omega)
      have h3 := b64Dec_code (b % 16 * 4) (by omega)
      have hy : b64Code (b % 16 * 4) ≠ 61 := b64Code_ne_61 _ (by omega)
      simp only [b64EncodeBytes, b64DecodeBytes, h1, h2, h3, hy,
        eq_self_iff_true, and_self, and_true, true_and, false_and, if_true,
        if_false]
      have e1 : a / 4 * 4 + (a % 4 * 16 + b / 16) / 16 = a := by omega
      have e2 : (a % 4 * 16 + b / 16) % 16 * 16 + b % 16 * 4 / 4 = b := by omega
      rw [e1, e2]
    | a :: b :: c :: rest =>
      have ha : a < 256 := hb a (by simp)
      have hb2 : b < 256 := hb b (by simp)
      have hc : c < 256 := hb c (by simp)
      have h1 := b64Dec_code (a / 4) (by omega)
      have h2 := b64Dec_code (a % 4 * 16 + b / 16) (by omega)
      have h3 := b64Dec_code (b % 16 * 4 + c / 64) (by omega)
      have h4 := b64Dec_code (c % 64) (by omega)
      have hy3 : b64Code (b % 16 * 4 + c / 64) ≠ 61 := b64Code_ne_61 _ (by omega)
      have hy4 : b64Code (c % 64) ≠ 61 := b64Code_ne_61 _ (by omega)
      have hrest : b64DecodeBytes (b64EncodeBytes rest) = some rest := by
        apply ih rest
        · simp only [List.length_cons] at hl
          omega
        · intro x hx
          exact hb x (by simp [hx])
      simp only [b64EncodeBytes, b64DecodeBytes, h1, h2, h3, h4, hrest, hy3,
        hy4, eq_self_iff_true, and_self, and_true, true_and, false_and,
        if_true, if_false]
      have e1 : a / 4 * 4 + (a % 4 * 16 + b / 16) / 16 = a := by omega
      have e2 : (a % 4 * 16 + b / 16) % 16 * 16 + (b % 16 * 4 + c / 64) / 4 = b := by omega
      have e3 : (b % 16 * 4 + c / 64) % 4 * 64 + c % 64 = c := by omega
      rw [e1, e2, e3]

/-- Base64 round trip for every byte sequence. -/
theorem b64_roundtrip (l : List Nat) (h : ∀ b ∈ l, b < 256) :
    b64DecodeBytes (b64EncodeBytes l) = some l :=
  b64_roundtrip_aux l.length l le_rfl h

/-- XOR-ing twice with the same cycled key is the identity. -/
theorem xorKS_involution (key : List Nat) :
    ∀ (data : List Nat) (i : Nat), xorKS key i (xorKS key i data) = data := by
  intro data
  induction data with
  | nil => intro i; rfl
  | cons d rest ih =>
    intro i
    simp only [xorKS]
    rw [ih (i + 1)]
    rw [Nat.xor_assoc, Nat.xor_self, Nat.xor_zero]

/-- The XOR keystream of byte-bounded data with a byte-bounded nonempty key
stays byte-bounded. -/
theorem xorKS_bound (key : List Nat) (hk : key ≠ []) (hkb : ∀ c ∈ key, c < 256) :
    ∀ (data : List Nat) (i : Nat), (∀ c ∈ data, c < 256) →
      ∀ b ∈ xorKS key i data, b < 256 := by
  intro data
  induction data with
  | nil => intro i _ b hb; simp [xorKS] at hb
  | cons d rest ih =>
    intro i hd b hb
    simp only [xorKS, List.mem_cons] at hb
    rcases hb with h | h
    · subst h
      have hlt : i % key.length < key.length :=
        Nat.mod_lt _ (List.length_pos.mpr hk)
      have hkey : key.getD (i % key.length) 0 < 256 := by
        rw [List.getD_eq_getElem _ _ hlt]
        exact hkb _ (List.getElem_mem hlt)
      have hdd : d < 256 := hd d (by simp)
      have h8 : (256 : Nat) = 2 ^ 8 := by norm_num
      rw [h8] at hdd hkey ⊢
      exact Nat.xor_lt_two_pow hdd hkey
    · exact ih (i + 1) (fun c hc => hd c (by simp [hc])) b h

/-- **C10 (counterexample)** — The round trip fails for data with a code
point above 255 even with a valid key: `btoa` throws on the XOR-ed stream, so
`encrypt` produces nothing at all.  Data `[256]` with key `[1]`. -/
theorem encrypt_roundtrip_counterexample :
    ¬ (∀ data key : List Nat, key ≠ [] → (∀ c ∈ key, c < 256) →
        ∃ e, encrypt data key = some e ∧ decrypt e key = some data) := by
  intro h
  obtain ⟨e, he, -⟩ := h [256] [1] (by simp) (by intro c hc; simp at hc; omega)
  have hn : encrypt [256] [1] = none := by decide
  rw [hn] at he
  exact Option.noConfusion he

/-- **C10 (amended)** — For every data string and every nonempty key whose
code points are all at most 255, and whose data code points are also all at
most 255, the obfuscation layer round-trips:
`decrypt (encrypt data key) key = data`. -/
theorem encrypt_decrypt_roundtrip (data key : List Nat) (hk : key ≠ [])
    (hkb : ∀ c ∈ key, c < 256) (hdb : ∀ c ∈ data, c < 256) :
    ∃ e, encrypt data key = some e ∧ decrypt e key = some data := by
  have hb : ∀ b ∈ xorKeystream data key, b < 256 :=
    xorKS_bound key hk hkb data 0 hdb
  refine ⟨b64EncodeBytes (xorKeystream data key), ?_, ?_⟩
  · unfold encrypt btoa
    rw [if_pos ?hc]
    case hc =>
      simp only [List.all_eq_true, decide_eq_true_eq]
      exact hb
  · unfold decrypt atob
    rw [b64_roundtrip _ hb]
    simp only [Option.map_some']
    congr 1
    exact xorKS_involution key data 0

/-- Witness for the amended C10 at data "Hi" and key "k". -/
theorem encrypt_decrypt_roundtrip_witness :
    ∃ e, encrypt [72, 105] [107] = some e ∧ decrypt e [107] = some [72, 105] :=
  encrypt_decrypt_roundtrip [72, 105] [107] (by simp) (by decide) (by decide)

/-- **C2 (counterexample)** — A stored envelope that fails to decode is not
cleared: with the undecodable slot `"!"` (code 33), `getLogs` returns the
empty sequence but the raw slot still holds the corrupt envelope, refuting
the claim that any decode/parse failure clears the slot. -/
theorem getLogs_clear_counterexample :
    ¬ (∀ (parse : List Nat → Option (StorageItem (List ActivityLogEntry)))
        (key enc : List Nat),
        (match decrypt enc key with
         | none => True
         | some c =>
           match parse c with
           | none => True
           | some it => it.version ≠ storageVersion) →
        getLogs parse key (some enc) = ([], none)) := by
  intro h
  have hd : decrypt [33] [107] = none := by decide
  have hcl := h badParse [107] [33] (by rw [hd]; trivial)
  have hg : getLogs badParse [107] (some [33]) = ([], some [33]) := by decide
  rw [hg] at hcl
  simp at hcl

/-- **C2 (amended)** — `getLogs` returns the empty sequence on every failure,
but only the schema-version mismatch clears the stored envelope; a decode or
parse failure leaves the slot untouched. -/
theorem getLogs_failure_policy
    (parse : List Nat → Option (StorageItem (List ActivityLogEntry)))
    (key enc : List Nat) :
    (decrypt enc key = none → getLogs parse key (some enc) = ([], some enc))
    ∧ (∀ c, decrypt enc key = some c → parse c = none →
        getLogs parse key (some enc) = ([], some enc))
    ∧ (∀ c it, decrypt enc key = some c → parse c = some it →
        it.version ≠ storageVersion → getLogs parse key (some enc) = ([], none)) := by
  refine ⟨?_, ?_, ?_⟩
  · intro hd
    simp [getLogs, getItem, hd]
  · intro c hd hp
    simp [getLogs, getItem, hd, hp]
  · intro c it hd hp hv
    simp [getLogs, getItem, hd, hp, hv]

/-- Witness for the amended C2: a decode failure keeps the slot, a version
mismatch clears it. -/
theorem getLogs_failure_policy_witness :
    getLogs badParse [107] (some [33]) = ([], some [33])
    ∧ getLogs staleParse [107] (some [65, 65, 61, 61]) = ([], none) :=
  ⟨(getLogs_failure_policy badParse [107] [33]).1 (by decide),
   (getLogs_failure_policy staleParse [107] [65, 65, 61, 61]).2.2 [107]
     { data := [], timestamp := 0, version := "0.9.0" } (by decide) rfl (by decide)⟩
